import Mathlib

/-
Shallow embedding of the dispatch/lifecycle core of the nexus-actor-rs
actor runtime: message envelopes, the one-for-one supervision strategy,
the request/response future process, and the default spawn pipeline.
Each definition mirrors one Rust function of the source; theorems settle
the specification's claims about them.
-/

/- ===== Message envelopes (src/actor/message_envelope.rs) ===== -/

/-- A dynamic message handle: either a plain user payload or a
`MessageEnvelope` of (optional header map, payload, optional sender PID).
Headers are modelled as association lists of nat keys/values, PIDs as nats. -/
inductive MessageHandle where
  | plain (n : Nat)
  | envelope (header : Option (List (Nat × Nat))) (message : MessageHandle) (sender : Option Nat)
deriving DecidableEq, Repr

/-- `wrap_envelope`: if the handle already downcasts to a `MessageEnvelope`,
return that envelope; otherwise build `MessageEnvelope::new(message)`,
which has no header and no sender. -/
def wrapEnvelope : MessageHandle → MessageHandle
  | MessageHandle.envelope h m s => MessageHandle.envelope h m s
  | m => MessageHandle.envelope none m none

/- ===== One-for-one supervision (src/actor/strategy_on_for_one.rs) ===== -/

/-- Modelled from the spec: `RestartStatistics` stores failure timestamps;
the concrete struct is not among the provided sources (only
`strategy_on_for_one.rs` uses it). Timestamps are nats. -/
structure RestartStatistics where
  failureTimes : List Nat
deriving DecidableEq, Repr

/-- Modelled from the spec: recording a failure appends the current time. -/
def RestartStatistics.recordFailure (rs : RestartStatistics) (now : Nat) : RestartStatistics :=
  RestartStatistics.mk (rs.failureTimes ++ [now])

/-- Modelled from the spec: `number_of_failures(window)` counts entries newer
than `now - window`. -/
def RestartStatistics.numberOfFailures (rs : RestartStatistics) (now window : Nat) : Nat :=
  (rs.failureTimes.filter (fun t => now - window < t)).length

/-- Modelled from the spec: resetting the statistics clears all entries. -/
def RestartStatistics.reset : RestartStatistics :=
  RestartStatistics.mk []

/-- The supervision directive returned by a decider. -/
inductive Directive where
  | resume
  | restart
  | stop
  | escalate
deriving DecidableEq, Repr

/-- `OneForOneStrategy { max_retries, within_duration, decider }`; the decider
is passed separately as a function from failure reasons (nats) to directives,
and durations are nats. -/
structure OneForOneStrategy where
  maxRetries : Nat
  withinDuration : Nat
deriving DecidableEq, Repr

/-- `OneForOneStrategy::should_stop(rs)`: with `max_retries == 0` stop at once;
otherwise record the failure, and if the count of failures within
`within_duration` strictly exceeds `max_retries`, reset the stats and stop,
else keep the updated stats and do not stop.  The mutated statistics are
returned alongside the decision. -/
def OneForOneStrategy.shouldStop (s : OneForOneStrategy) (now : Nat)
    (rs : RestartStatistics) : Bool × RestartStatistics :=
  if s.maxRetries = 0 then
    (true, rs)
  else
    let rs1 := rs.recordFailure now
    if s.maxRetries < rs1.numberOfFailures now s.withinDuration then
      (true, RestartStatistics.reset)
    else
      (false, rs1)

/-- The call the strategy makes on the supervisor: resume, stop or restart the
failing child, or escalate `(reason, message)` upward. -/
inductive SupervisorAction where
  | resumeChildren (child : Nat)
  | stopChildren (child : Nat)
  | restartChildren (child : Nat)
  | escalateFailure (reason : Nat) (message : Nat)
deriving DecidableEq, Repr

/-- `OneForOneStrategy::handle_failure`: run the decider on the reason; on
`Resume` resume the child, on `Restart` stop the child when `should_stop`
says so and restart it otherwise, on `Stop` stop it, on `Escalate` escalate
the failure. Returns the supervisor call and the final restart statistics. -/
def OneForOneStrategy.handleFailure (s : OneForOneStrategy) (decider : Nat → Directive)
    (now : Nat) (child : Nat) (rs : RestartStatistics) (reason : Nat) (message : Nat) :
    SupervisorAction × RestartStatistics :=
  match decider reason with
  | Directive.resume => (SupervisorAction.resumeChildren child, rs)
  | Directive.restart =>
    match s.shouldStop now rs with
    | (true, rs1) => (SupervisorAction.stopChildren child, rs1)
    | (false, rs1) => (SupervisorAction.restartChildren child, rs1)
  | Directive.stop => (SupervisorAction.stopChildren child, rs)
  | Directive.escalate => (SupervisorAction.escalateFailure reason message, rs)

/- ===== Future process (core/src/actor/dispatch/future.rs) ===== -/

/-- `ActorFutureError`: the two ways a future can fail. -/
inductive ActorFutureError where
  | timeoutError
  | deadLetterError
deriving DecidableEq, Repr

/-- A message delivered to or by a future process: the protobuf
`DeadLetterResponse`, a user payload, or a wrapped `ActorFutureError`
(built by `MessageHandle::new(error)` when forwarding to pipes). -/
inductive FMsg where
  | deadLetterResponse
  | user (n : Nat)
  | futureError (e : ActorFutureError)
deriving DecidableEq, Repr

/-- `ActorFutureInner`: the one-shot state guarded by the future's lock.
Pipes are PIDs (nats); completion callbacks are identified by nats. -/
structure ActorFutureInner where
  pid : Option Nat
  done : Bool
  result : Option FMsg
  error : Option ActorFutureError
  pipes : List Nat
  completions : List Nat
deriving DecidableEq, Repr

/-- The inner state as `ActorFutureProcess::new` builds it. -/
def initialInner : ActorFutureInner :=
  ActorFutureInner.mk none false none none [] []

/-- The message a resolved future forwards: the error when failed, else the
stored result (`none` models the `unwrap` panic on an unresolved result). -/
def resolvedMessage (inner : ActorFutureInner) : Option FMsg :=
  match inner.error with
  | some e => some (FMsg.futureError e)
  | none => inner.result

/-- Observable effects of one future operation: user messages sent to pipe
PIDs, completion callbacks run with their `(result, error)` arguments, and
whether `notify_waiters` was called. -/
structure FutureEffects where
  sends : List (Nat × Option FMsg)
  ran : List (Nat × Option FMsg × Option ActorFutureError)
  notified : Bool
deriving DecidableEq, Repr

/-- An operation that touches nothing reports no effects. -/
def noEffects : FutureEffects :=
  FutureEffects.mk [] [] false

/-- `ActorFuture::send_to_pipes`: send the resolved message to every pipe,
then clear the pipe list. -/
def sendToPipes (inner : ActorFutureInner) : ActorFutureInner × List (Nat × Option FMsg) :=
  ({ inner with pipes := [] }, inner.pipes.map (fun p => (p, resolvedMessage inner)))

/-- `ActorFuture::run_completions`: drain the queued completions, running each
with the current `(result, error)`. -/
def runCompletions (inner : ActorFutureInner) :
    ActorFutureInner × List (Nat × Option FMsg × Option ActorFutureError) :=
  ({ inner with completions := [] }, inner.completions.map (fun c => (c, inner.result, inner.error)))

/-- `ActorFuture::complete(result)`: when not yet done, store the result, set
done, send to pipes, run completions and wake waiters; otherwise do nothing. -/
def ActorFuture.complete (result : FMsg) (inner : ActorFutureInner) :
    ActorFutureInner × FutureEffects :=
  if inner.done then
    (inner, noEffects)
  else
    let inner1 := { inner with result := some result, done := true }
    let step2 := sendToPipes inner1
    let step3 := runCompletions step2.1
    (step3.1, FutureEffects.mk step2.2 step3.2 true)

/-- `ActorFuture::fail(error)`: when not yet done, store the error, set done,
send to pipes, run completions and wake waiters; otherwise do nothing. -/
def ActorFuture.fail (error : ActorFutureError) (inner : ActorFutureInner) :
    ActorFutureInner × FutureEffects :=
  if inner.done then
    (inner, noEffects)
  else
    let inner1 := { inner with error := some error, done := true }
    let step2 := sendToPipes inner1
    let step3 := runCompletions step2.1
    (step3.1, FutureEffects.mk step2.2 step3.2 true)

/-- `ActorFuture::pipe_to(pid)`: push the PID onto the pipe list; when the
future is already done, immediately send to (and clear) the pipes. -/
def ActorFuture.pipeTo (p : Nat) (inner : ActorFutureInner) :
    ActorFutureInner × FutureEffects :=
  let inner1 := { inner with pipes := inner.pipes ++ [p] }
  if inner1.done then
    let step2 := sendToPipes inner1
    (step2.1, FutureEffects.mk step2.2 [] false)
  else
    (inner1, noEffects)

/-- `ActorFuture::continue_with(f)`: when done, run the continuation at once
with `(result, error)`; otherwise queue it. -/
def ActorFuture.continueWith (c : Nat) (inner : ActorFutureInner) :
    ActorFutureInner × FutureEffects :=
  if inner.done then
    (inner, FutureEffects.mk [] [(c, inner.result, inner.error)] false)
  else
    ({ inner with completions := inner.completions ++ [c] }, noEffects)

/-- `ActorFuture::result()`: `none` while not done (the caller suspends); once
done, the error when failed, else the unwrapped stored result (`none` for a
done future with neither models the `unwrap` panic). -/
def ActorFuture.resultOf (inner : ActorFutureInner) : Option (Except ActorFutureError FMsg) :=
  if inner.done then
    match inner.error with
    | some e => some (Except.error e)
    | none => inner.result.map Except.ok
  else
    none

/-- `ActorFutureProcess::send_user_message`: a `DeadLetterResponse` payload
fails the future with `DeadLetterError`; any other payload completes it. -/
def ActorFutureProcess.sendUserMessage (m : FMsg) (inner : ActorFutureInner) :
    ActorFutureInner × FutureEffects :=
  if m = FMsg.deadLetterResponse then
    ActorFuture.fail ActorFutureError.deadLetterError inner
  else
    ActorFuture.complete m inner

/-- `ActorFutureProcess::send_system_message`: completes the future with the
system message payload. -/
def ActorFutureProcess.sendSystemMessage (m : FMsg) (inner : ActorFutureInner) :
    ActorFutureInner × FutureEffects :=
  ActorFuture.complete m inner

/-- `ActorFutureProcess::handle_timeout`: fail with `TimeoutError`, then send
the error to every remaining pipe and clear the pipe list. -/
def ActorFutureProcess.handleTimeout (inner : ActorFutureInner) :
    ActorFutureInner × FutureEffects :=
  let step1 := ActorFuture.fail ActorFutureError.timeoutError inner
  let extra := step1.1.pipes.map
    (fun p => (p, some (FMsg.futureError ActorFutureError.timeoutError)))
  ({ step1.1 with pipes := [] },
   { step1.2 with sends := step1.2.sends ++ extra })

/-- The world the empty-bodied process methods act on: the future state plus
its registration entry in the process registry (name nats to PID nats). -/
structure FutureProcessWorld where
  inner : ActorFutureInner
  registry : List (Nat × Nat)
deriving DecidableEq, Repr

/-- `ActorFutureProcess::stop`: the body is empty. -/
def ActorFutureProcess.stopProcess (w : FutureProcessWorld) : FutureProcessWorld × FutureEffects :=
  (w, noEffects)

/-- `ActorFutureProcess::set_dead`: the body is empty. -/
def ActorFutureProcess.setDead (w : FutureProcessWorld) : FutureProcessWorld × FutureEffects :=
  (w, noEffects)

/-- `ActorFutureProcess::new` arms the timeout task only when the duration
(in nanoseconds) is strictly greater than zero. -/
def timerArmed (durationNanos : Nat) : Bool :=
  decide (0 < durationNanos)

/-- The operations that can reach a future after creation. -/
inductive FutureOp where
  | complete (m : FMsg)
  | fail (e : ActorFutureError)
  | pipeTo (p : Nat)
  | continueWith (c : Nat)
  | userMsg (m : FMsg)
  | sysMsg (m : FMsg)
  | timeout
  | stopOp
  | setDeadOp
deriving DecidableEq, Repr

/-- One operation against the future state.  The `timeout` event is the timer
task firing: when the timer was never armed it does not exist, so nothing
happens.  `stop` and `set_dead` act on the inner state not at all. -/
def stepOp (armed : Bool) : FutureOp → ActorFutureInner → ActorFutureInner × FutureEffects
  | FutureOp.complete m, st => ActorFuture.complete m st
  | FutureOp.fail e, st => ActorFuture.fail e st
  | FutureOp.pipeTo p, st => ActorFuture.pipeTo p st
  | FutureOp.continueWith c, st => ActorFuture.continueWith c st
  | FutureOp.userMsg m, st => ActorFutureProcess.sendUserMessage m st
  | FutureOp.sysMsg m, st => ActorFutureProcess.sendSystemMessage m st
  | FutureOp.timeout, st => if armed then ActorFutureProcess.handleTimeout st else (st, noEffects)
  | FutureOp.stopOp, st => (st, noEffects)
  | FutureOp.setDeadOp, st => (st, noEffects)

/-- Run a sequence of operations, accumulating the pipe sends they emit. -/
def runOps (armed : Bool) : List FutureOp → ActorFutureInner → ActorFutureInner × List (Nat × Option FMsg)
  | [], st => (st, [])
  | op :: rest, st =>
    let first := stepOp armed op st
    let later := runOps armed rest first.1
    (later.1, first.2.sends ++ later.2)

/-- How many of the accumulated sends went to PID `p`. -/
def countSendsTo (p : Nat) (sends : List (Nat × Option FMsg)) : Nat :=
  (sends.filter (fun s => s.1 = p)).length

/-- How many `pipe_to p` operations a sequence contains. -/
def countPipeTo (p : Nat) (ops : List FutureOp) : Nat :=
  (ops.filter (fun o => o = FutureOp.pipeTo p)).length

/- ===== Default spawner (core/src/actor/actor/props.rs, spawner.rs) ===== -/

/-- `SpawnError` (spawner.rs): name collision carrying the colliding PID, or
a failed `PreStart` carrying the actor error (an arbitrary nat). -/
inductive SpawnError where
  | errNameExists (pid : Nat)
  | errPreStart (err : Nat)
deriving DecidableEq, Repr

/-- The pipeline steps the default spawner performs after registration, in
source order: set the self PID, run the `on_init` hooks, register the
mailbox handlers, invoke `PreStart`, post the `Start` system message, and
start the mailbox. -/
inductive SpawnStep where
  | setSelf
  | onInit
  | registerHandlers
  | invokePreStart
  | postStartMessage
  | mailboxStart
deriving DecidableEq, Repr

/-- The slice of `Props` the default spawner branches on: whether the
synchronous `PreStart` invocation succeeds (`none`) or returns an actor
error (`some err`). -/
structure SpawnProps where
  preStartError : Option Nat
deriving DecidableEq, Repr

/-- `ProcessRegistry::add_process` (insert-if-absent): names and PIDs are
nats, a PID is keyed by its name; when the name is present the registry is
unchanged and the absent flag is false. -/
def addProcess (registry : List Nat) (name : Nat) : List Nat × Nat × Bool :=
  if registry.contains name then
    (registry, name, false)
  else
    (registry ++ [name], name, true)

/-- `DEFAULT_SPAWNER` (props.rs lines 75-144): register an `ActorProcess`
under the name; on collision return `ErrNameExists(pid)` at once.  Otherwise
set the self PID, run `on_init`, register mailbox handlers and invoke
`PreStart` synchronously; on actor error return `ErrPreStart(err)` (the
source removes nothing from the registry on this path).  On success post
`Start`, start the mailbox and return the PID.  The result is the spawn
outcome, the final registry, and the steps performed after registration. -/
def defaultSpawner (name : Nat) (props : SpawnProps) (registry : List Nat) :
    Except SpawnError Nat × List Nat × List SpawnStep :=
  match addProcess registry name with
  | (registry1, pid, false) => (Except.error (SpawnError.errNameExists pid), registry1, [])
  | (registry1, pid, true) =>
    match props.preStartError with
    | some e =>
      (Except.error (SpawnError.errPreStart e), registry1,
       [SpawnStep.setSelf, SpawnStep.onInit, SpawnStep.registerHandlers, SpawnStep.invokePreStart])
    | none =>
      (Except.ok pid, registry1,
       [SpawnStep.setSelf, SpawnStep.onInit, SpawnStep.registerHandlers, SpawnStep.invokePreStart,
        SpawnStep.postStartMessage, SpawnStep.mailboxStart])

/- ===== Theorems ===== -/

/-- C8: envelope wrapping is idempotent: wrapping twice equals wrapping once,
and wrapping a value that is already a `MessageEnvelope` yields an envelope
with the same header, message and sender. -/
theorem wrapEnvelope_idempotent :
    (∀ m : MessageHandle, wrapEnvelope (wrapEnvelope m) = wrapEnvelope m) ∧
    (∀ (h : Option (List (Nat × Nat))) (msg : MessageHandle) (s : Option Nat),
      wrapEnvelope (MessageHandle.envelope h msg s) = MessageHandle.envelope h msg s) := by
  constructor
  · intro m
    cases m <;> rfl
  · intro h msg s
    rfl

/-- C1: for a `OneForOneStrategy` whose decider answers `Restart`: with
`max_retries = 0` the child is stopped (never restarted); otherwise the
failure is recorded first, and the child is stopped with the statistics
reset exactly when the failure count within the trailing window strictly
exceeds `max_retries`, and restarted (keeping the updated statistics)
otherwise. -/
theorem oneForOne_restart_policy (s : OneForOneStrategy) (decider : Nat → Directive)
    (now child reason message : Nat) (rs : RestartStatistics)
    (hdec : decider reason = Directive.restart) :
    (s.maxRetries = 0 →
      s.handleFailure decider now child rs reason message =
        (SupervisorAction.stopChildren child, rs)) ∧
    (s.maxRetries ≠ 0 →
      (s.maxRetries < (rs.recordFailure now).numberOfFailures now s.withinDuration →
        s.handleFailure decider now child rs reason message =
          (SupervisorAction.stopChildren child, RestartStatistics.reset)) ∧
      ((rs.recordFailure now).numberOfFailures now s.withinDuration ≤ s.maxRetries →
        s.handleFailure decider now child rs reason message =
          (SupervisorAction.restartChildren child, rs.recordFailure now))) := by
  refine ⟨fun h0 => ?_, fun h0 => ⟨fun hgt => ?_, fun hle => ?_⟩⟩
  · simp [OneForOneStrategy.handleFailure, hdec, OneForOneStrategy.shouldStop, h0]
  · simp [OneForOneStrategy.handleFailure, hdec, OneForOneStrategy.shouldStop, h0, hgt]
  · simp [OneForOneStrategy.handleFailure, hdec, OneForOneStrategy.shouldStop, h0,
      if_neg (Nat.not_lt.mpr hle)]

/-- Concrete run of `oneForOne_restart_policy`: one failure within the window
with `max_retries = 1` restarts the child and keeps the recorded failure. -/
theorem oneForOne_restart_policy_witness :
    OneForOneStrategy.handleFailure (OneForOneStrategy.mk 1 10) (fun _ => Directive.restart)
      5 0 (RestartStatistics.mk []) 0 0 =
      (SupervisorAction.restartChildren 0, RestartStatistics.mk [5]) :=
  ((oneForOne_restart_policy (OneForOneStrategy.mk 1 10) (fun _ => Directive.restart)
      5 0 0 0 (RestartStatistics.mk []) rfl).2 (by decide)).2 (by decide)

/-- C7: when the requested name is already registered, the default spawner
fails with `ErrNameExists` carrying the colliding PID, leaves the registry
unchanged, and performs none of the later pipeline steps. -/
theorem defaultSpawner_nameExists (name : Nat) (props : SpawnProps) (registry : List Nat)
    (htaken : name ∈ registry) :
    defaultSpawner name props registry =
      (Except.error (SpawnError.errNameExists name), registry, []) := by
  simp [defaultSpawner, addProcess, htaken]

/-- Concrete run of `defaultSpawner_nameExists`: spawning name 7 into a
registry already holding 7 collides. -/
theorem defaultSpawner_nameExists_witness :
    defaultSpawner 7 (SpawnProps.mk none) [7] =
      (Except.error (SpawnError.errNameExists 7), [7], []) :=
  defaultSpawner_nameExists 7 (SpawnProps.mk none) [7] (by simp)

/-- C4 counterexample: with a fresh name and a failing `PreStart`, the
default spawner returns `ErrPreStart` but the registry entry added under the
name is still present when spawn returns — it is not removed. -/
theorem defaultSpawner_preStart_counterexample :
    (defaultSpawner 3 (SpawnProps.mk (some 7)) []).1 =
      Except.error (SpawnError.errPreStart 7) ∧
    (defaultSpawner 3 (SpawnProps.mk (some 7)) []).2.1 = [3] ∧
    (defaultSpawner 3 (SpawnProps.mk (some 7)) []).2.1.contains 3 = true :=
  ⟨rfl, rfl, rfl⟩

/-- C4 amended: if the synchronous `PreStart` invocation fails, spawn returns
`ErrPreStart` carrying the actor error and stops after the `PreStart` step,
but the registry entry added under the name remains registered. -/
theorem defaultSpawner_preStartFailed (name e : Nat) (props : SpawnProps) (registry : List Nat)
    (hfree : name ∉ registry)
    (herr : props.preStartError = some e) :
    defaultSpawner name props registry =
      (Except.error (SpawnError.errPreStart e), registry ++ [name],
       [SpawnStep.setSelf, SpawnStep.onInit, SpawnStep.registerHandlers,
        SpawnStep.invokePreStart]) := by
  simp [defaultSpawner, addProcess, hfree, herr]

/-- Concrete run of `defaultSpawner_preStartFailed`. -/
theorem defaultSpawner_preStartFailed_witness :
    defaultSpawner 3 (SpawnProps.mk (some 7)) [] =
      (Except.error (SpawnError.errPreStart 7), [3],
       [SpawnStep.setSelf, SpawnStep.onInit, SpawnStep.registerHandlers,
        SpawnStep.invokePreStart]) :=
  defaultSpawner_preStartFailed 3 7 (SpawnProps.mk (some 7)) [] (by simp) rfl

/-- C9: `stop` and `set_dead` on a future process are no-ops: the future's
inner state and its registry registration are unchanged and no effects are
produced. -/
theorem futureProcess_stop_setDead_noop (w : FutureProcessWorld) :
    ActorFutureProcess.stopProcess w = (w, noEffects) ∧
    ActorFutureProcess.setDead w = (w, noEffects) ∧
    (ActorFutureProcess.stopProcess w).1.inner = w.inner ∧
    (ActorFutureProcess.stopProcess w).1.registry = w.registry ∧
    (ActorFutureProcess.setDead w).1.inner = w.inner ∧
    (ActorFutureProcess.setDead w).1.registry = w.registry :=
  ⟨rfl, rfl, rfl, rfl, rfl, rfl⟩

/-- C3: `send_user_message` with a `DeadLetterResponse` payload fails the
future with `DeadLetterError`, with any other payload completes it with that
message, and `send_system_message` always completes the future with the
system message payload; on a not-yet-done future this sets the corresponding
done/result/error fields. -/
theorem futureProcess_incoming_semantics (m : FMsg) (st : ActorFutureInner) :
    (ActorFutureProcess.sendUserMessage FMsg.deadLetterResponse st =
       ActorFuture.fail ActorFutureError.deadLetterError st) ∧
    (m ≠ FMsg.deadLetterResponse →
       ActorFutureProcess.sendUserMessage m st = ActorFuture.complete m st) ∧
    (ActorFutureProcess.sendSystemMessage m st = ActorFuture.complete m st) ∧
    (st.done = false →
       ((ActorFutureProcess.sendUserMessage FMsg.deadLetterResponse st).1.error =
          some ActorFutureError.deadLetterError ∧
        (ActorFutureProcess.sendUserMessage FMsg.deadLetterResponse st).1.done = true) ∧
       (m ≠ FMsg.deadLetterResponse →
        (ActorFutureProcess.sendUserMessage m st).1.result = some m ∧
        (ActorFutureProcess.sendUserMessage m st).1.done = true) ∧
       ((ActorFutureProcess.sendSystemMessage m st).1.result = some m ∧
        (ActorFutureProcess.sendSystemMessage m st).1.done = true)) := by
  refine ⟨rfl, fun hm => ?_, rfl, fun hdone => ⟨?_, fun hm => ?_, ?_⟩⟩
  · simp [ActorFutureProcess.sendUserMessage, hm]
  · constructor <;>
      simp [ActorFutureProcess.sendUserMessage, ActorFuture.fail, sendToPipes,
        runCompletions, hdone]
  · rw [show ActorFutureProcess.sendUserMessage m st = ActorFuture.complete m st from by
      simp [ActorFutureProcess.sendUserMessage, hm]]
    constructor <;> simp [ActorFuture.complete, sendToPipes, runCompletions, hdone]
  · constructor <;>
      simp [ActorFutureProcess.sendSystemMessage, ActorFuture.complete, sendToPipes,
        runCompletions, hdone]

/-- Concrete run of `futureProcess_incoming_semantics`: a non-dead-letter user
message completes a fresh future with that message. -/
theorem futureProcess_incoming_semantics_witness :
    (ActorFutureProcess.sendUserMessage (FMsg.user 0) initialInner).1.result =
      some (FMsg.user 0) ∧
    (ActorFutureProcess.sendUserMessage FMsg.deadLetterResponse initialInner).1.error =
      some ActorFutureError.deadLetterError :=
  ⟨(((futureProcess_incoming_semantics (FMsg.user 0) initialInner).2.2.2 rfl).2.1
      (by decide)).1,
   (((futureProcess_incoming_semantics (FMsg.user 0) initialInner).2.2.2 rfl).1).1⟩

/-- C2: exactly one of `complete`/`fail` takes effect.  On a not-yet-done
future, `complete` sets done and the result (and `fail` the error), wakes
waiters and runs the queued completions; on a done future both are no-ops
leaving state and effects untouched — in particular a `fail` right after a
`complete` (and vice versa) changes nothing. -/
theorem future_resolve_first_call_wins (st : ActorFutureInner) (m : FMsg)
    (e : ActorFutureError) :
    (st.done = false →
      ((ActorFuture.complete m st).1.done = true ∧
       (ActorFuture.complete m st).1.result = some m ∧
       (ActorFuture.complete m st).1.error = st.error ∧
       (ActorFuture.complete m st).1.completions = [] ∧
       (ActorFuture.complete m st).2.notified = true ∧
       (ActorFuture.complete m st).2.ran = st.completions.map (fun c => (c, some m, st.error))) ∧
      ((ActorFuture.fail e st).1.done = true ∧
       (ActorFuture.fail e st).1.error = some e ∧
       (ActorFuture.fail e st).1.result = st.result ∧
       (ActorFuture.fail e st).1.completions = [] ∧
       (ActorFuture.fail e st).2.notified = true ∧
       (ActorFuture.fail e st).2.ran = st.completions.map (fun c => (c, st.result, some e)))) ∧
    (st.done = true →
      ActorFuture.complete m st = (st, noEffects) ∧
      ActorFuture.fail e st = (st, noEffects)) ∧
    (st.done = false →
      ActorFuture.fail e (ActorFuture.complete m st).1 = ((ActorFuture.complete m st).1, noEffects) ∧
      ActorFuture.complete m (ActorFuture.fail e st).1 = ((ActorFuture.fail e st).1, noEffects)) := by
  refine ⟨fun hdone => ?_, fun hdone => ?_, fun hdone => ?_⟩ <;>
    simp [ActorFuture.complete, ActorFuture.fail, sendToPipes, runCompletions, hdone]

/-- Concrete run of `future_resolve_first_call_wins`: completing a fresh
future sets done and the result, and a subsequent `fail` is a no-op. -/
theorem future_resolve_first_call_wins_witness :
    ((ActorFuture.complete (FMsg.user 1) initialInner).1.done = true ∧
     (ActorFuture.complete (FMsg.user 1) initialInner).1.result = some (FMsg.user 1)) ∧
    ActorFuture.fail ActorFutureError.timeoutError
        (ActorFuture.complete (FMsg.user 1) initialInner).1 =
      ((ActorFuture.complete (FMsg.user 1) initialInner).1, noEffects) :=
  ⟨⟨((future_resolve_first_call_wins initialInner (FMsg.user 1)
        ActorFutureError.timeoutError).1 rfl).1.1,
    ((future_resolve_first_call_wins initialInner (FMsg.user 1)
        ActorFutureError.timeoutError).1 rfl).1.2.1⟩,
   ((future_resolve_first_call_wins initialInner (FMsg.user 1)
        ActorFutureError.timeoutError).2.2 rfl).1⟩

/-- How many entries of a pipe list equal `p`. -/
def countPipes (p : Nat) (l : List Nat) : Nat :=
  (l.filter (fun q => q = p)).length

/-- The sends a single operation emits when the future is already resolved
and its pipe list is empty: only `pipe_to` sends, and only to its target. -/
def donePipeSends (st : ActorFutureInner) : FutureOp → List (Nat × Option FMsg)
  | FutureOp.pipeTo q => [(q, resolvedMessage st)]
  | _ => []

theorem countSendsTo_append (p : Nat) (a b : List (Nat × Option FMsg)) :
    countSendsTo p (a ++ b) = countSendsTo p a + countSendsTo p b := by
  simp [countSendsTo, List.filter_append]

theorem countSendsTo_mapPipes (p : Nat) (l : List Nat) (x : Option FMsg) :
    countSendsTo p (l.map (fun q => (q, x))) = countPipes p l := by
  induction l with
  | nil => rfl
  | cons a l ih =>
    by_cases h : a = p <;>
      simp only [List.map_cons, countSendsTo, countPipes, List.filter_cons] at * <;>
      simp [h, ih]

theorem countPipes_append (p : Nat) (a b : List Nat) :
    countPipes p (a ++ b) = countPipes p a + countPipes p b := by
  simp [countPipes, List.filter_append]

theorem countPipeTo_cons (p : Nat) (op : FutureOp) (ops : List FutureOp) :
    countPipeTo p (op :: ops) = countPipeTo p [op] + countPipeTo p ops := by
  by_cases h : op = FutureOp.pipeTo p <;>
    simp [countPipeTo, List.filter_cons, h, Nat.add_comm]

theorem countSendsTo_donePipeSends (p : Nat) (st : ActorFutureInner) (op : FutureOp) :
    countSendsTo p (donePipeSends st op) = countPipeTo p [op] := by
  cases op <;> simp [donePipeSends, countSendsTo, countPipeTo, List.filter]
  case pipeTo q => by_cases h : q = p <;> simp [h]

theorem donePipeSends_payload (st : ActorFutureInner) (op : FutureOp) :
    ∀ s ∈ donePipeSends st op, s.2 = resolvedMessage st := by
  cases op <;> simp [donePipeSends]

theorem resolvedMessage_congr (a b : ActorFutureInner) (he : a.error = b.error)
    (hr : a.result = b.result) : resolvedMessage a = resolvedMessage b := by
  simp [resolvedMessage, he, hr]

theorem stepOp_done (armed : Bool) (op : FutureOp) (st : ActorFutureInner)
    (hdone : st.done = true) (hpipes : st.pipes = []) :
    (stepOp armed op st).1.done = true ∧
    (stepOp armed op st).1.pipes = [] ∧
    (stepOp armed op st).1.result = st.result ∧
    (stepOp armed op st).1.error = st.error ∧
    (stepOp armed op st).2.sends = donePipeSends st op := by
  cases op with
  | userMsg m =>
    by_cases hm : m = FMsg.deadLetterResponse <;>
      simp [stepOp, donePipeSends, ActorFutureProcess.sendUserMessage, ActorFuture.fail,
        ActorFuture.complete, noEffects, hm, hdone, hpipes]
  | timeout =>
    cases armed <;>
      simp [stepOp, donePipeSends, ActorFutureProcess.handleTimeout, ActorFuture.fail,
        noEffects, hdone, hpipes]
  | pipeTo q =>
    simp [stepOp, donePipeSends, ActorFuture.pipeTo, sendToPipes, hdone, hpipes,
      resolvedMessage]
  | _ =>
    simp [stepOp, donePipeSends, ActorFuture.complete, ActorFuture.fail,
      ActorFuture.continueWith, ActorFutureProcess.sendSystemMessage, noEffects, hdone, hpipes]

theorem runOps_done (armed : Bool) (p : Nat) (ops : List FutureOp) :
    ∀ st : ActorFutureInner, st.done = true → st.pipes = [] →
      (runOps armed ops st).1.done = true ∧
      (runOps armed ops st).1.pipes = [] ∧
      (runOps armed ops st).1.result = st.result ∧
      (runOps armed ops st).1.error = st.error ∧
      countSendsTo p (runOps armed ops st).2 = countPipeTo p ops ∧
      ∀ s ∈ (runOps armed ops st).2, s.2 = resolvedMessage st := by
  induction ops with
  | nil =>
    intro st h1 h2
    simp [runOps, countSendsTo, countPipeTo, h1, h2]
  | cons op rest ih =>
    intro st h1 h2
    obtain ⟨d1, d2, d3, d4, d5⟩ := stepOp_done armed op st h1 h2
    obtain ⟨r1, r2, r3, r4, r5, r6⟩ := ih (stepOp armed op st).1 d1 d2
    have hrm : resolvedMessage (stepOp armed op st).1 = resolvedMessage st :=
      resolvedMessage_congr _ _ d4 d3
    have hrun : runOps armed (op :: rest) st =
        ((runOps armed rest (stepOp armed op st).1).1,
         (stepOp armed op st).2.sends ++ (runOps armed rest (stepOp armed op st).1).2) := rfl
    rw [hrun]
    refine ⟨r1, r2, by rw [r3, d3], by rw [r4, d4], ?_, ?_⟩
    · rw [countSendsTo_append, d5, countSendsTo_donePipeSends, r5, countPipeTo_cons p op rest]
    · intro s hs
      rcases List.mem_append.mp hs with hs | hs
      · rw [d5] at hs
        exact donePipeSends_payload st op s hs
      · rw [r6 s hs, hrm]

theorem complete_notDone_proj (m : FMsg) (st : ActorFutureInner) (h : st.done = false) :
    (ActorFuture.complete m st).1.done = true ∧
    (ActorFuture.complete m st).1.pipes = [] ∧
    (ActorFuture.complete m st).1.result = some m ∧
    (ActorFuture.complete m st).1.error = st.error ∧
    (ActorFuture.complete m st).2.sends =
      st.pipes.map (fun q => (q, resolvedMessage (ActorFuture.complete m st).1)) := by
  simp [ActorFuture.complete, sendToPipes, runCompletions, h, resolvedMessage]

theorem fail_notDone_proj (e : ActorFutureError) (st : ActorFutureInner) (h : st.done = false) :
    (ActorFuture.fail e st).1.done = true ∧
    (ActorFuture.fail e st).1.pipes = [] ∧
    (ActorFuture.fail e st).1.result = st.result ∧
    (ActorFuture.fail e st).1.error = some e ∧
    (ActorFuture.fail e st).2.sends =
      st.pipes.map (fun q => (q, resolvedMessage (ActorFuture.fail e st).1)) := by
  simp [ActorFuture.fail, sendToPipes, runCompletions, h, resolvedMessage]

theorem handleTimeout_notDone_proj (st : ActorFutureInner) (h : st.done = false) :
    (ActorFutureProcess.handleTimeout st).1.done = true ∧
    (ActorFutureProcess.handleTimeout st).1.pipes = [] ∧
    (ActorFutureProcess.handleTimeout st).1.result = st.result ∧
    (ActorFutureProcess.handleTimeout st).1.error = some ActorFutureError.timeoutError ∧
    (ActorFutureProcess.handleTimeout st).2.sends =
      st.pipes.map (fun q => (q, resolvedMessage (ActorFutureProcess.handleTimeout st).1)) := by
  simp [ActorFutureProcess.handleTimeout, ActorFuture.fail, sendToPipes, runCompletions, h,
    resolvedMessage]

theorem countPipeTo_single (p q : Nat) :
    countPipeTo p [FutureOp.pipeTo q] = countPipes p [q] := by
  by_cases hq : q = p <;> simp [countPipeTo, countPipes, hq]

theorem runOps_resolveStep (armed : Bool) (p : Nat) (rest : List FutureOp)
    (st st1 : ActorFutureInner) (sends1 : List (Nat × Option FMsg))
    (h1 : st1.done = true) (h2 : st1.pipes = [])
    (hs : sends1 = st.pipes.map (fun q => (q, resolvedMessage st1))) :
    (countSendsTo p (sends1 ++ (runOps armed rest st1).2) =
       countPipes p st.pipes + countPipeTo p rest ∧
     ∀ s ∈ sends1 ++ (runOps armed rest st1).2,
       s.2 = resolvedMessage (runOps armed rest st1).1) ∧
    (runOps armed rest st1).1.done = true := by
  obtain ⟨r1, r2, r3, r4, r5, r6⟩ := runOps_done armed p rest st1 h1 h2
  have hrm : resolvedMessage (runOps armed rest st1).1 = resolvedMessage st1 :=
    resolvedMessage_congr _ _ r4 r3
  refine ⟨⟨?_, ?_⟩, r1⟩
  · rw [countSendsTo_append, hs, countSendsTo_mapPipes, r5]
  · intro s hsm
    rcases List.mem_append.mp hsm with hm | hm
    · rw [hs] at hm
      obtain ⟨q, _, rfl⟩ := List.mem_map.mp hm
      rw [hrm]
    · rw [r6 s hm, hrm]

theorem countPipeTo_nonPipe (p : Nat) (op : FutureOp) (ops : List FutureOp)
    (h : ∀ q, op ≠ FutureOp.pipeTo q) :
    countPipeTo p (op :: ops) = countPipeTo p ops := by
  have hp : op ≠ FutureOp.pipeTo p := h p
  simp [countPipeTo, List.filter_cons, hp]

theorem runOps_notDone (armed : Bool) (p : Nat) (ops : List FutureOp) :
    ∀ st : ActorFutureInner, st.done = false →
      ((runOps armed ops st).1.done = true →
         countSendsTo p (runOps armed ops st).2 =
           countPipes p st.pipes + countPipeTo p ops ∧
         ∀ s ∈ (runOps armed ops st).2, s.2 = resolvedMessage (runOps armed ops st).1) ∧
      ((runOps armed ops st).1.done = false →
         (runOps armed ops st).2 = [] ∧
         countPipes p (runOps armed ops st).1.pipes =
           countPipes p st.pipes + countPipeTo p ops) := by
  induction ops with
  | nil =>
    intro st h
    simp [runOps, h, countPipeTo]
  | cons op rest ih =>
    intro st h
    have hrun : runOps armed (op :: rest) st =
        ((runOps armed rest (stepOp armed op st).1).1,
         (stepOp armed op st).2.sends ++ (runOps armed rest (stepOp armed op st).1).2) := rfl
    cases op with
    | complete m =>
      have hstep : stepOp armed (FutureOp.complete m) st = ActorFuture.complete m st := rfl
      obtain ⟨c1, c2, _, _, c5⟩ := complete_notDone_proj m st h
      obtain ⟨⟨k1, k2⟩, k3⟩ := runOps_resolveStep armed p rest st _ _ c1 c2 c5
      rw [hrun, hstep]
      refine ⟨fun _ => ⟨?_, k2⟩, fun hd => ?_⟩
      · rw [k1, countPipeTo_nonPipe p _ rest (fun q hq => FutureOp.noConfusion hq)]
      · rw [k3] at hd
        exact absurd hd (by simp)
    | fail e =>
      have hstep : stepOp armed (FutureOp.fail e) st = ActorFuture.fail e st := rfl
      obtain ⟨c1, c2, _, _, c5⟩ := fail_notDone_proj e st h
      obtain ⟨⟨k1, k2⟩, k3⟩ := runOps_resolveStep armed p rest st _ _ c1 c2 c5
      rw [hrun, hstep]
      refine ⟨fun _ => ⟨?_, k2⟩, fun hd => ?_⟩
      · rw [k1, countPipeTo_nonPipe p _ rest (fun q hq => FutureOp.noConfusion hq)]
      · rw [k3] at hd
        exact absurd hd (by simp)
    | sysMsg m =>
      have hstep : stepOp armed (FutureOp.sysMsg m) st = ActorFuture.complete m st := rfl
      obtain ⟨c1, c2, _, _, c5⟩ := complete_notDone_proj m st h
      obtain ⟨⟨k1, k2⟩, k3⟩ := runOps_resolveStep armed p rest st _ _ c1 c2 c5
      rw [hrun, hstep]
      refine ⟨fun _ => ⟨?_, k2⟩, fun hd => ?_⟩
      · rw [k1, countPipeTo_nonPipe p _ rest (fun q hq => FutureOp.noConfusion hq)]
      · rw [k3] at hd
        exact absurd hd (by simp)
    | userMsg m =>
      by_cases hm : m = FMsg.deadLetterResponse
      · have hstep : stepOp armed (FutureOp.userMsg m) st =
            ActorFuture.fail ActorFutureError.deadLetterError st := by
          simp [stepOp, ActorFutureProcess.sendUserMessage, hm]
        obtain ⟨c1, c2, _, _, c5⟩ :=
          fail_notDone_proj ActorFutureError.deadLetterError st h
        obtain ⟨⟨k1, k2⟩, k3⟩ := runOps_resolveStep armed p rest st _ _ c1 c2 c5
        rw [hrun, hstep]
        refine ⟨fun _ => ⟨?_, k2⟩, fun hd => ?_⟩
        · rw [k1, countPipeTo_nonPipe p _ rest (fun q hq => FutureOp.noConfusion hq)]
        · rw [k3] at hd
          exact absurd hd (by simp)
      · have hstep : stepOp armed (FutureOp.userMsg m) st = ActorFuture.complete m st := by
          simp [stepOp, ActorFutureProcess.sendUserMessage, hm]
        obtain ⟨c1, c2, _, _, c5⟩ := complete_notDone_proj m st h
        obtain ⟨⟨k1, k2⟩, k3⟩ := runOps_resolveStep armed p rest st _ _ c1 c2 c5
        rw [hrun, hstep]
        refine ⟨fun _ => ⟨?_, k2⟩, fun hd => ?_⟩
        · rw [k1, countPipeTo_nonPipe p _ rest (fun q hq => FutureOp.noConfusion hq)]
        · rw [k3] at hd
          exact absurd hd (by simp)
    | timeout =>
      cases armed with
      | true =>
        have hstep : stepOp true FutureOp.timeout st = ActorFutureProcess.handleTimeout st := by
          simp [stepOp]
        obtain ⟨c1, c2, _, _, c5⟩ := handleTimeout_notDone_proj st h
        obtain ⟨⟨k1, k2⟩, k3⟩ := runOps_resolveStep true p rest st _ _ c1 c2 c5
        rw [hrun, hstep]
        refine ⟨fun _ => ⟨?_, k2⟩, fun hd => ?_⟩
        · rw [k1, countPipeTo_nonPipe p _ rest (fun q hq => FutureOp.noConfusion hq)]
        · rw [k3] at hd
          exact absurd hd (by simp)
      | false =>
        have hstep : stepOp false FutureOp.timeout st = (st, noEffects) := by
          simp [stepOp]
        rw [hrun, hstep, countPipeTo_nonPipe p _ rest (fun q hq => FutureOp.noConfusion hq)]
        simpa [noEffects] using ih st h
    | stopOp =>
      have hstep : stepOp armed FutureOp.stopOp st = (st, noEffects) := rfl
      rw [hrun, hstep, countPipeTo_nonPipe p _ rest (fun q hq => FutureOp.noConfusion hq)]
      simpa [noEffects] using ih st h
    | setDeadOp =>
      have hstep : stepOp armed FutureOp.setDeadOp st = (st, noEffects) := rfl
      rw [hrun, hstep, countPipeTo_nonPipe p _ rest (fun q hq => FutureOp.noConfusion hq)]
      simpa [noEffects] using ih st h
    | continueWith c =>
      have hstep : stepOp armed (FutureOp.continueWith c) st =
          ({ st with completions := st.completions ++ [c] }, noEffects) := by
        simp [stepOp, ActorFuture.continueWith, h]
      rw [hrun, hstep, countPipeTo_nonPipe p _ rest (fun q hq => FutureOp.noConfusion hq)]
      simpa [noEffects] using ih { st with completions := st.completions ++ [c] } (by simp [h])
    | pipeTo q =>
      have hstep : stepOp armed (FutureOp.pipeTo q) st =
          ({ st with pipes := st.pipes ++ [q] }, noEffects) := by
        simp [stepOp, ActorFuture.pipeTo, h]
      obtain ⟨ih1, ih2⟩ := ih { st with pipes := st.pipes ++ [q] } (by simp [h])
      rw [hrun, hstep, countPipeTo_cons p (FutureOp.pipeTo q) rest, countPipeTo_single]
      constructor
      · intro hd
        obtain ⟨a1, a2⟩ := ih1 hd
        refine ⟨?_, by simpa [noEffects] using a2⟩
        have a1x : countSendsTo p
            (runOps armed rest { st with pipes := st.pipes ++ [q] }).2 =
            countPipes p (st.pipes ++ [q]) + countPipeTo p rest := a1
        simp only [noEffects, List.nil_append]
        rw [a1x, countPipes_append]
        omega
      · intro hd
        obtain ⟨a1, a2⟩ := ih2 hd
        have a2x : countPipes p
            (runOps armed rest { st with pipes := st.pipes ++ [q] }).1.pipes =
            countPipes p (st.pipes ++ [q]) + countPipeTo p rest := a2
        refine ⟨by simpa [noEffects] using a1, ?_⟩
        rw [a2x, countPipes_append]
        omega

theorem stepOp_done_frozen (armed : Bool) (op : FutureOp) (st : ActorFutureInner)
    (hd : st.done = true) :
    (stepOp armed op st).1.done = true ∧
    (stepOp armed op st).1.result = st.result ∧
    (stepOp armed op st).1.error = st.error := by
  cases op with
  | userMsg m =>
    by_cases hm : m = FMsg.deadLetterResponse <;>
      simp [stepOp, ActorFutureProcess.sendUserMessage, ActorFuture.fail, ActorFuture.complete,
        noEffects, hm, hd]
  | timeout =>
    cases armed <;>
      simp [stepOp, ActorFutureProcess.handleTimeout, ActorFuture.fail, noEffects, hd]
  | pipeTo q => simp [stepOp, ActorFuture.pipeTo, sendToPipes, hd]
  | _ =>
    simp [stepOp, ActorFuture.complete, ActorFuture.fail, ActorFuture.continueWith,
      ActorFutureProcess.sendSystemMessage, noEffects, hd]

theorem stepOp_notDone_resolved (armed : Bool) (op : FutureOp) (st : ActorFutureInner)
    (hd : st.done = false) :
    (stepOp armed op st).1.done = true → resolvedMessage (stepOp armed op st).1 ≠ none := by
  cases op with
  | complete m =>
    intro _
    obtain ⟨_, _, c3, _, _⟩ := complete_notDone_proj m st hd
    cases he : (ActorFuture.complete m st).1.error <;> simp [stepOp, resolvedMessage, he, c3]
  | fail e =>
    intro _
    obtain ⟨_, _, _, c4, _⟩ := fail_notDone_proj e st hd
    simp [stepOp, resolvedMessage, c4]
  | sysMsg m =>
    intro _
    obtain ⟨_, _, c3, _, _⟩ := complete_notDone_proj m st hd
    cases he : (ActorFuture.complete m st).1.error <;>
      simp [stepOp, ActorFutureProcess.sendSystemMessage, resolvedMessage, he, c3]
  | userMsg m =>
    by_cases hm : m = FMsg.deadLetterResponse
    · intro _
      obtain ⟨_, _, _, c4, _⟩ := fail_notDone_proj ActorFutureError.deadLetterError st hd
      simp [stepOp, ActorFutureProcess.sendUserMessage, resolvedMessage, hm, c4]
    · intro _
      obtain ⟨_, _, c3, _, _⟩ := complete_notDone_proj m st hd
      cases he : (ActorFuture.complete m st).1.error <;>
        simp [stepOp, ActorFutureProcess.sendUserMessage, resolvedMessage, hm, he, c3]
  | timeout =>
    cases armed
    · simp [stepOp, noEffects, hd]
    · intro _
      obtain ⟨_, _, _, c4, _⟩ := handleTimeout_notDone_proj st hd
      simp [stepOp, resolvedMessage, c4]
  | pipeTo q => simp [stepOp, ActorFuture.pipeTo, hd]
  | continueWith c => simp [stepOp, ActorFuture.continueWith, noEffects, hd]
  | stopOp => simp [stepOp, noEffects, hd]
  | setDeadOp => simp [stepOp, noEffects, hd]

theorem runOps_resolved_inv (armed : Bool) (ops : List FutureOp) :
    ∀ st : ActorFutureInner, (st.done = true → resolvedMessage st ≠ none) →
      ((runOps armed ops st).1.done = true →
        resolvedMessage (runOps armed ops st).1 ≠ none) := by
  induction ops with
  | nil =>
    intro st h
    simpa [runOps] using h
  | cons op rest ih =>
    intro st h
    have hrun1 : (runOps armed (op :: rest) st).1 =
        (runOps armed rest (stepOp armed op st).1).1 := rfl
    rw [hrun1]
    apply ih
    cases hd : st.done with
    | true =>
      obtain ⟨_, f2, f3⟩ := stepOp_done_frozen armed op st hd
      intro _
      rw [resolvedMessage_congr _ _ f3 f2]
      exact h hd
    | false => exact stepOp_notDone_resolved armed op st hd

theorem stepOp_noTimeoutError (op : FutureOp) (st : ActorFutureInner)
    (h : st.error ≠ some ActorFutureError.timeoutError)
    (hop : op ≠ FutureOp.fail ActorFutureError.timeoutError) :
    (stepOp false op st).1.error ≠ some ActorFutureError.timeoutError := by
  cases op with
  | complete m =>
    cases hd : st.done <;>
      simp [stepOp, ActorFuture.complete, sendToPipes, runCompletions, noEffects, hd, h]
  | fail e =>
    have he : e ≠ ActorFutureError.timeoutError := fun hE => hop (by rw [hE])
    cases hd : st.done <;>
      simp [stepOp, ActorFuture.fail, sendToPipes, runCompletions, noEffects, hd, h, he]
  | userMsg m =>
    by_cases hm : m = FMsg.deadLetterResponse <;> cases hd : st.done <;>
      simp [stepOp, ActorFutureProcess.sendUserMessage, ActorFuture.fail, ActorFuture.complete,
        sendToPipes, runCompletions, noEffects, hm, hd, h]
  | sysMsg m =>
    cases hd : st.done <;>
      simp [stepOp, ActorFutureProcess.sendSystemMessage, ActorFuture.complete, sendToPipes,
        runCompletions, noEffects, hd, h]
  | timeout => simpa [stepOp, noEffects] using h
  | pipeTo q =>
    cases hd : st.done <;> simp [stepOp, ActorFuture.pipeTo, sendToPipes, hd, h]
  | continueWith c =>
    cases hd : st.done <;> simp [stepOp, ActorFuture.continueWith, noEffects, hd, h]
  | stopOp => simpa [stepOp, noEffects] using h
  | setDeadOp => simpa [stepOp, noEffects] using h

theorem runOps_noTimeoutError (ops : List FutureOp) :
    ∀ st : ActorFutureInner, st.error ≠ some ActorFutureError.timeoutError →
      FutureOp.fail ActorFutureError.timeoutError ∉ ops →
      (runOps false ops st).1.error ≠ some ActorFutureError.timeoutError := by
  induction ops with
  | nil =>
    intro st h _
    simpa [runOps] using h
  | cons op rest ih =>
    intro st h hmem
    have hop : op ≠ FutureOp.fail ActorFutureError.timeoutError :=
      fun hE => hmem (hE ▸ List.mem_cons_self _ _)
    have hrest : FutureOp.fail ActorFutureError.timeoutError ∉ rest :=
      fun hr => hmem (List.mem_cons_of_mem _ hr)
    exact ih _ (stepOp_noTimeoutError op st h hop) hrest

/-- C5: every `pipe_to` target receives the resolved value exactly once: for
any operation sequence on a fresh future, once it is resolved the number of
sends to a PID equals the number of `pipe_to` registrations of that PID and
every send carries the resolved value; while unresolved no sends happen at
all; and a `pipe_to` on an already-done future (whose pipe list is empty)
forwards the resolved value to that target immediately. -/
theorem future_pipes_exactly_once (armed : Bool) (ops : List FutureOp) (p q : Nat)
    (st : ActorFutureInner) :
    ((runOps armed ops initialInner).1.done = true →
       countSendsTo p (runOps armed ops initialInner).2 = countPipeTo p ops ∧
       ∀ s ∈ (runOps armed ops initialInner).2,
         s.2 = resolvedMessage (runOps armed ops initialInner).1) ∧
    ((runOps armed ops initialInner).1.done = false →
       (runOps armed ops initialInner).2 = []) ∧
    (st.done = true → st.pipes = [] →
       ActorFuture.pipeTo q st =
         ({ st with pipes := [] },
          FutureEffects.mk [(q, resolvedMessage st)] [] false)) := by
  obtain ⟨h1, h2⟩ := runOps_notDone armed p ops initialInner rfl
  refine ⟨fun hd => ?_, fun hd => (h2 hd).1, fun hdone hpipes => ?_⟩
  · obtain ⟨a1, a2⟩ := h1 hd
    refine ⟨?_, a2⟩
    rw [a1]
    simp [initialInner, countPipes]
  · simp only [ActorFuture.pipeTo, hpipes]
    rw [if_pos hdone]
    simp [sendToPipes, resolvedMessage]

/-- Concrete run of `future_pipes_exactly_once`: two registrations of PID 1
around a `complete` both receive the result exactly once each, and a
`pipe_to` on a resolved future forwards immediately. -/
theorem future_pipes_exactly_once_witness :
    countSendsTo 1 (runOps false
        [FutureOp.pipeTo 1, FutureOp.complete (FMsg.user 5), FutureOp.pipeTo 1]
        initialInner).2 =
      countPipeTo 1 [FutureOp.pipeTo 1, FutureOp.complete (FMsg.user 5), FutureOp.pipeTo 1] ∧
    ActorFuture.pipeTo 2 (ActorFutureInner.mk none true (some (FMsg.user 5)) none [] []) =
      (ActorFutureInner.mk none true (some (FMsg.user 5)) none [] [],
       FutureEffects.mk [(2, some (FMsg.user 5))] [] false) := by
  constructor
  · exact ((future_pipes_exactly_once false
      [FutureOp.pipeTo 1, FutureOp.complete (FMsg.user 5), FutureOp.pipeTo 1] 1 2
      (ActorFutureInner.mk none true (some (FMsg.user 5)) none [] [])).1 (by decide)).1
  · have := (future_pipes_exactly_once false
      [FutureOp.pipeTo 1, FutureOp.complete (FMsg.user 5), FutureOp.pipeTo 1] 1 2
      (ActorFutureInner.mk none true (some (FMsg.user 5)) none [] [])).2.2 rfl rfl
    simpa [resolvedMessage] using this

/-- C6: for any reachable future state, once the future is done `result()`
yields exactly the stored error (`TimeoutError` or `DeadLetterError`) when
it was failed and exactly `Ok` of the completion message otherwise — never
any other outcome; while not done it yields nothing (the caller suspends). -/
theorem future_result_semantics (armed : Bool) (ops : List FutureOp) :
    ((runOps armed ops initialInner).1.done = true →
       (∀ e, (runOps armed ops initialInner).1.error = some e →
          ActorFuture.resultOf (runOps armed ops initialInner).1 =
            some (Except.error e)) ∧
       ((runOps armed ops initialInner).1.error = none →
          ∃ m, (runOps armed ops initialInner).1.result = some m ∧
            ActorFuture.resultOf (runOps armed ops initialInner).1 =
              some (Except.ok m))) ∧
    ((runOps armed ops initialInner).1.done = false →
       ActorFuture.resultOf (runOps armed ops initialInner).1 = none) := by
  have hinv := runOps_resolved_inv armed ops initialInner (by simp [initialInner])
  refine ⟨fun hdone => ⟨fun e he => ?_, fun he => ?_⟩, fun hdone => ?_⟩
  · simp [ActorFuture.resultOf, hdone, he]
  · have hr := hinv hdone
    have hres : (runOps armed ops initialInner).1.result ≠ none := by
      intro hn
      exact hr (by simp [resolvedMessage, he, hn])
    obtain ⟨m, hm⟩ := Option.ne_none_iff_exists'.mp hres
    exact ⟨m, hm, by simp [ActorFuture.resultOf, hdone, he, hm]⟩
  · simp [ActorFuture.resultOf, hdone]

/-- Concrete run of `future_result_semantics`: after a `complete` the result
is `Ok` of the message; after a timer-less `fail TimeoutError` it is that
error. -/
theorem future_result_semantics_witness :
    (∃ m, (runOps false [FutureOp.complete (FMsg.user 2)] initialInner).1.result = some m ∧
       ActorFuture.resultOf (runOps false [FutureOp.complete (FMsg.user 2)] initialInner).1 =
         some (Except.ok m)) ∧
    ActorFuture.resultOf
        (runOps false [FutureOp.fail ActorFutureError.deadLetterError] initialInner).1 =
      some (Except.error ActorFutureError.deadLetterError) :=
  ⟨((future_result_semantics false [FutureOp.complete (FMsg.user 2)]).1
      (by decide)).2 (by decide),
   ((future_result_semantics false [FutureOp.fail ActorFutureError.deadLetterError]).1
      (by decide)).1 ActorFutureError.deadLetterError (by decide)⟩

/-- C10: a future created with a zero duration never arms the timeout timer,
and with the timer unarmed no operation sequence that does not itself call
`fail(TimeoutError)` can leave the future failed with `TimeoutError` — the
future is never spontaneously timed out. -/
theorem future_zero_timeout_never_times_out :
    timerArmed 0 = false ∧
    ∀ ops : List FutureOp, FutureOp.fail ActorFutureError.timeoutError ∉ ops →
      (runOps (timerArmed 0) ops initialInner).1.error ≠
        some ActorFutureError.timeoutError := by
  refine ⟨rfl, fun ops hmem => ?_⟩
  exact runOps_noTimeoutError ops initialInner (by simp [initialInner]) hmem

/-- Concrete run of `future_zero_timeout_never_times_out`: even with a
pending `timeout` event in the trace, an unarmed future completes without a
timeout error. -/
theorem future_zero_timeout_never_times_out_witness :
    (runOps (timerArmed 0)
        [FutureOp.timeout, FutureOp.complete (FMsg.user 3), FutureOp.timeout]
        initialInner).1.error ≠ some ActorFutureError.timeoutError :=
  future_zero_timeout_never_times_out.2
    [FutureOp.timeout, FutureOp.complete (FMsg.user 3), FutureOp.timeout] (by decide)
